import Mathlib

set_option autoImplicit false

/-!
A verification development for clocpy, a per-language source-line counter.
The definitions below are a shallow embedding of `clocpy.py`: the language
registry, the file-type resolver, the per-line classifier, the aggregation
loop and the report builder.  Theorems about them follow the definitions.
-/

namespace Clocpy

/-- A Python value that is either a single string or a tuple of strings (the
source uses such unions for extension lists and comment markers). -/
inductive StrOrTup where
  | str (s : String)
  | tup (l : List String)
  deriving DecidableEq, Repr

/-- Python `tuple(x)` on a string-or-tuple: a tuple is returned as is, while a
string is split into its individual characters. -/
def pyTuple : StrOrTup → List String
  | .str s => s.data.map (fun c => String.mk [c])
  | .tup l => l

/-- Python `s.startswith(p)` where `p` is a string or a tuple of strings. -/
def pyStartswith (s : String) : StrOrTup → Bool
  | .str p => p.data.isPrefixOf s.data
  | .tup l => l.any (fun p => p.data.isPrefixOf s.data)

/-- Python `s.endswith(p)` where `p` is a string or a tuple of strings. -/
def pyEndswith (s : String) : StrOrTup → Bool
  | .str p => p.data.isSuffixOf s.data
  | .tup l => l.any (fun p => p.data.isSuffixOf s.data)

/-- The characters Python `str.strip()` removes (Python's whitespace set). -/
def isPySpace (c : Char) : Bool :=
  c.toNat == 0x20 || (0x09 ≤ c.toNat && c.toNat ≤ 0x0d)
    || (0x1c ≤ c.toNat && c.toNat ≤ 0x1f)
    || c.toNat == 0x85 || c.toNat == 0xa0 || c.toNat == 0x1680
    || (0x2000 ≤ c.toNat && c.toNat ≤ 0x200a)
    || c.toNat == 0x2028 || c.toNat == 0x2029 || c.toNat == 0x202f
    || c.toNat == 0x205f || c.toNat == 0x3000

/-- Python `line.strip()`: drop leading and trailing whitespace. -/
def pyStrip (s : String) : String :=
  String.mk (((s.data.dropWhile isPySpace).reverse.dropWhile isPySpace).reverse)

/-- The line-boundary characters of Python `str.splitlines()`. -/
def isLineBoundary (c : Char) : Bool :=
  c.toNat == 0x0a || c.toNat == 0x0b || c.toNat == 0x0c || c.toNat == 0x0d
    || c.toNat == 0x1c || c.toNat == 0x1d || c.toNat == 0x1e || c.toNat == 0x85
    || c.toNat == 0x2028 || c.toNat == 0x2029

/-- Worker for `splitlines`; `acc` holds the current line, reversed. -/
def splitlinesGo : List Char → List Char → List String
  | [], [] => []
  | [], acc => [String.mk acc.reverse]
  | '\r' :: '\n' :: rest, acc => String.mk acc.reverse :: splitlinesGo rest []
  | c :: rest, acc =>
    if isLineBoundary c then String.mk acc.reverse :: splitlinesGo rest []
    else splitlinesGo rest (c :: acc)

/-- Python `text.splitlines()`: split at line boundaries, with `\r\n` counting
as a single boundary; a trailing boundary produces no empty final line. -/
def splitlines (s : String) : List String :=
  splitlinesGo s.data []

/-- One registry entry: the source's `Language` dataclass. -/
structure Language where
  name : String
  file_suffix : StrOrTup
  comment_line_prefixes : StrOrTup
  multiline_comment_sequences : List (String × String)
  deriving DecidableEq, Repr

/-- `Language.get_factory`: build languages whose comment markers extend the
given defaults.  Python `tuple` is applied to the defaults, so a string
default such as `"//"` is split into its characters. -/
def Language.get_factory (default_comment_line_prefixes : StrOrTup)
    (default_multiline_comment_sequences : List (String × String))
    (name : String) (file_suffix : StrOrTup)
    (comment_line_prefixes : StrOrTup)
    (multiline_comment_sequences : List (String × String)) : Language :=
  { name := name
    file_suffix := file_suffix
    comment_line_prefixes :=
      .tup (pyTuple default_comment_line_prefixes ++ pyTuple comment_line_prefixes)
    multiline_comment_sequences :=
      default_multiline_comment_sequences ++ multiline_comment_sequences }

/-- The source's `CLIKE` factory, applied with the two optional arguments at
their defaults (an empty tuple and an empty sequence). -/
def CLIKE (name : String) (file_suffix : StrOrTup) : Language :=
  Language.get_factory (.str "//") [("/*", "*/")] name file_suffix (.tup []) []

/-- The per-language counters: the source's `AnalysisInfo` dataclass. -/
structure AnalysisInfo where
  files : Nat := 0
  blank : Nat := 0
  comment : Nat := 0
  code : Nat := 0
  deriving DecidableEq, Repr

/-- The source's `SUPPORTED_LANGUAGES` registry, in declaration order. -/
def SUPPORTED_LANGUAGES : List Language :=
  [ CLIKE "C" (.str ".c"),
    CLIKE "C++" (.tup [".c++", ".cpp"]),
    CLIKE "Javascript" (.str ".js"),
    CLIKE "C#" (.tup [".cs", ".csx"]),
    CLIKE "Java" (.str ".java"),
    CLIKE "Golang" (.str ".go"),
    { name := "Python", file_suffix := .tup [".py", ".pyw"],
      comment_line_prefixes := .str "#",
      multiline_comment_sequences := [("\"\"\"", "\"\"\"")] } ]

/-- One input file, abstracted to the two observations the source makes of a
path: its `suffix` (as in `pathlib.Path.suffix`) and the outcome of
`read_text()`, which may fail. -/
structure FileInput where
  suffix : String
  read_text : Except Unit String
  deriving Repr

/-- The source's `figure_out_file_type`: the first registry entry whose
`file_suffix` the path's suffix ends with, if any. -/
def figure_out_file_type (file : FileInput) (supported_languages : List Language) :
    Option Language :=
  supported_languages.find? (fun lang => pyEndswith file.suffix lang.file_suffix)

/-- The three outcomes of the source's per-line `if/elif/else`. -/
inductive LineCategory where
  | blank
  | comment
  | code
  deriving DecidableEq, Repr

/-- Lines 100-105 of the source: `blank` when the stripped line is empty,
`comment` when it starts with one of the language's comment line markers,
`code` otherwise. -/
def classifyLine (lang : Language) (line : String) : LineCategory :=
  if line = "" then .blank
  else if pyStartswith line lang.comment_line_prefixes then .comment
  else .code

/-- Bump the counter selected by `classifyLine`. -/
def countLine (lang : Language) (a : AnalysisInfo) (line : String) : AnalysisInfo :=
  match classifyLine lang line with
  | .blank => { a with blank := a.blank + 1 }
  | .comment => { a with comment := a.comment + 1 }
  | .code => { a with code := a.code + 1 }

/-- The aggregation mapping: the source's insertion-ordered
`Dict[Language, AnalysisInfo]`, as an association list. -/
abbrev AggState := List (Language × AnalysisInfo)

/-- First value stored under a key (Python `d[k]` / `k in d`). -/
def lookupInfo : AggState → Language → Option AnalysisInfo
  | [], _ => none
  | (k, v) :: rest, l => if k = l then some v else lookupInfo rest l

/-- Python `d[k] = v` on an insertion-ordered dict: replace in place when the
key is present, append at the end otherwise. -/
def setInfo : AggState → Language → AnalysisInfo → AggState
  | [], l, a => [(l, a)]
  | (k, v) :: rest, l, a => if k = l then (l, a) :: rest else (k, v) :: setInfo rest l a

/-- `analysis.files += 1`. -/
def incrFiles (a : AnalysisInfo) : AnalysisInfo :=
  { a with files := a.files + 1 }

/-- The body of the source's per-file loop (lines 87-105).  When `read_text`
fails, the exception carries the state at the failure point, in which `files`
has already been bumped. -/
def processFile (st : AggState) (file : FileInput) : Except AggState AggState :=
  match figure_out_file_type file SUPPORTED_LANGUAGES with
  | none => .ok st
  | some ftype =>
    let analysis := (lookupInfo st ftype).getD {}
    let analysis1 := incrFiles analysis
    let st1 := setInfo st ftype analysis1
    match file.read_text with
    | .error _ => .error st1
    | .ok text =>
      let contents := (splitlines text).map pyStrip
      .ok (setInfo st1 ftype (contents.foldl (countLine ftype) analysis1))

/-- The aggregation loop over the discovered files. -/
def runFiles : AggState → List FileInput → Except AggState AggState
  | st, [] => .ok st
  | st, f :: fs =>
    match processFile st f with
    | .error st1 => .error st1
    | .ok st1 => runFiles st1 fs

/-- Line 115 of the source: stable sort of the dict items by `code`,
descending. -/
def sortRows (st : AggState) : AggState :=
  st.mergeSort (fun a b => decide (b.2.code ≤ a.2.code))

/-- One step of the running totals of lines 122-125 of the source. -/
def totalsStep (t : AnalysisInfo) (row : Language × AnalysisInfo) : AnalysisInfo :=
  { files := t.files + row.2.files, blank := t.blank + row.2.blank,
    comment := t.comment + row.2.comment, code := t.code + row.2.code }

/-- Lines 111-125 of the source: the running totals for the SUM row. -/
def computeTotals (rows : AggState) : AnalysisInfo :=
  rows.foldl totalsStep {}

/-- The structured report: per-language rows in display order plus the SUM
row. -/
structure Report where
  rows : AggState
  sumRow : AnalysisInfo
  deriving DecidableEq, Repr

/-- Lines 106-128 of the source: sort and total the aggregation mapping. -/
def buildReport (st : AggState) : Report :=
  { rows := sortRows st, sumRow := computeTotals (sortRows st) }

/-- The root argument as the source observes it: a directory (listed with its
recursively discovered files), a single file, or neither. -/
inductive RootPath where
  | dir (files : List FileInput)
  | file (f : FileInput)
  | invalid (name : String)

/-- The source's failure modes: the `ValueError` raised for a bad root, or a
failing `read_text` (carrying the aggregation state at the failure point). -/
inductive ClocpyError where
  | invalidRoot (msg : String)
  | fileRead (partialState : AggState)

/-- The `clocpy` command, lines 77-128: validate the root, aggregate,
report. -/
def clocpy : RootPath → Except ClocpyError Report
  | .invalid name =>
    .error (.invalidRoot ("\"" ++ name ++ "\" is not a file or a directory"))
  | .dir files =>
    match runFiles [] files with
    | .error st => .error (.fileRead st)
    | .ok st => .ok (buildReport st)
  | .file f =>
    match runFiles [] [f] with
    | .error st => .error (.fileRead st)
    | .ok st => .ok (buildReport st)

/-- The comment line markers of a registry entry, as the list of strings it
stores. -/
def configuredLineMarkers (lang : Language) : List String :=
  match lang.comment_line_prefixes with
  | .str s => [s]
  | .tup l => l

/-- The registered extension strings of a registry entry. -/
def registeredExtensions (lang : Language) : List String :=
  match lang.file_suffix with
  | .str s => [s]
  | .tup l => l

/-- Number of lines `read_text` delivers for a file (0 when the read fails). -/
def linesRead (f : FileInput) : Nat :=
  match f.read_text with
  | .ok text => (splitlines text).length
  | .error _ => 0

/-- Total lines read across the files attributed to language `l`. -/
def totalLinesFor (l : Language) : List FileInput → Nat
  | [] => 0
  | f :: fs =>
    (if figure_out_file_type f SUPPORTED_LANGUAGES = some l then linesRead f else 0)
      + totalLinesFor l fs

/-- blank + comment + code. -/
def counterSum (a : AnalysisInfo) : Nat :=
  a.blank + a.comment + a.code

/-- The blank/comment/code sum currently recorded for `l` (0 when absent). -/
def sumFor (st : AggState) (l : Language) : Nat :=
  counterSum ((lookupInfo st l).getD {})

/-! ### Helper lemmas -/

theorem pyStartswith_iff (s : String) (lang : Language) :
    pyStartswith s lang.comment_line_prefixes = true ↔
      ∃ m ∈ configuredLineMarkers lang, m.data.isPrefixOf s.data = true := by
  cases h : lang.comment_line_prefixes with
  | str p => simp [pyStartswith, configuredLineMarkers, h]
  | tup l => simp [pyStartswith, configuredLineMarkers, h, List.any_eq_true]

theorem pyStartswith_eq_false_iff (s : String) (lang : Language) :
    pyStartswith s lang.comment_line_prefixes = false ↔
      ∀ m ∈ configuredLineMarkers lang, m.data.isPrefixOf s.data = false := by
  rw [← Bool.not_eq_true, pyStartswith_iff]
  push_neg
  simp only [Bool.not_eq_true]

theorem pyEndswith_iff (s : String) (lang : Language) :
    pyEndswith s lang.file_suffix = true ↔
      ∃ e ∈ registeredExtensions lang, e.data.isSuffixOf s.data = true := by
  cases h : lang.file_suffix with
  | str p => simp [pyEndswith, registeredExtensions, h]
  | tup l => simp [pyEndswith, registeredExtensions, h, List.any_eq_true]

theorem pyEndswith_eq_false_iff (s : String) (lang : Language) :
    pyEndswith s lang.file_suffix = false ↔
      ∀ e ∈ registeredExtensions lang, e.data.isSuffixOf s.data = false := by
  rw [← Bool.not_eq_true, pyEndswith_iff]
  push_neg
  simp only [Bool.not_eq_true]

theorem counterSum_countLine (lang : Language) (a : AnalysisInfo) (line : String) :
    counterSum (countLine lang a line) = counterSum a + 1 := by
  simp only [countLine]
  split <;> simp [counterSum] <;> omega

theorem counterSum_foldl (lang : Language) :
    ∀ (lines : List String) (a : AnalysisInfo),
      counterSum (lines.foldl (countLine lang) a) = counterSum a + lines.length
  | [], a => by simp
  | line :: lines, a => by
    rw [List.foldl_cons, counterSum_foldl lang lines, counterSum_countLine]
    simp [Nat.add_comm, Nat.add_assoc, Nat.add_left_comm]

theorem counterSum_incrFiles (a : AnalysisInfo) :
    counterSum (incrFiles a) = counterSum a := rfl

theorem lookupInfo_setInfo_self :
    ∀ (st : AggState) (k : Language) (v : AnalysisInfo),
      lookupInfo (setInfo st k v) k = some v
  | [], k, v => by simp [setInfo, lookupInfo]
  | (k0, v0) :: rest, k, v => by
    by_cases h : k0 = k
    · simp [setInfo, h, lookupInfo]
    · simp [setInfo, h, lookupInfo, lookupInfo_setInfo_self rest k v]

theorem lookupInfo_setInfo_ne :
    ∀ (st : AggState) (k : Language) (v : AnalysisInfo) (l : Language), l ≠ k →
      lookupInfo (setInfo st k v) l = lookupInfo st l
  | [], k, v, l, h => by
    have hkl : ¬ k = l := fun hx => h hx.symm
    simp [setInfo, lookupInfo, hkl]
  | (k0, v0) :: rest, k, v, l, h => by
    by_cases h0 : k0 = k
    · subst h0
      have hkl : ¬ k0 = l := fun hx => h hx.symm
      simp [setInfo, lookupInfo, hkl]
    · by_cases h1 : k0 = l
      · simp [setInfo, h0, lookupInfo, h1, h]
      · simp [setInfo, h0, lookupInfo, h1, lookupInfo_setInfo_ne rest k v l h]

theorem setInfo_setInfo :
    ∀ (st : AggState) (k : Language) (v1 v2 : AnalysisInfo),
      setInfo (setInfo st k v1) k v2 = setInfo st k v2
  | [], k, v1, v2 => by simp [setInfo]
  | (k0, v0) :: rest, k, v1, v2 => by
    by_cases h : k0 = k
    · simp [setInfo, h]
    · simp [setInfo, h, setInfo_setInfo rest k v1 v2]

theorem processFile_some_ok (st : AggState) (f : FileInput) (ftype : Language)
    (text : String)
    (hft : figure_out_file_type f SUPPORTED_LANGUAGES = some ftype)
    (hrd : f.read_text = Except.ok text) :
    processFile st f = Except.ok (setInfo st ftype
      (((splitlines text).map pyStrip).foldl (countLine ftype)
        (incrFiles ((lookupInfo st ftype).getD {})))) := by
  simp only [processFile, hft, hrd]
  rw [setInfo_setInfo]

theorem processFile_some_error (st : AggState) (f : FileInput) (ftype : Language)
    (hft : figure_out_file_type f SUPPORTED_LANGUAGES = some ftype)
    (hrd : f.read_text = Except.error ()) :
    processFile st f =
      Except.error (setInfo st ftype (incrFiles ((lookupInfo st ftype).getD {}))) := by
  simp only [processFile, hft, hrd]

theorem sumFor_processFile_ok (st st1 : AggState) (f : FileInput)
    (h : processFile st f = Except.ok st1) (l : Language) :
    sumFor st1 l = sumFor st l
      + (if figure_out_file_type f SUPPORTED_LANGUAGES = some l
          then linesRead f else 0) := by
  cases hft : figure_out_file_type f SUPPORTED_LANGUAGES with
  | none =>
    have hid : processFile st f = Except.ok st := by simp only [processFile, hft]
    rw [hid] at h
    injection h with h
    subst h
    simp [hft]
  | some ftype =>
    cases hrd : f.read_text with
    | error e =>
      cases e
      rw [processFile_some_error st f ftype hft hrd] at h
      exact Except.noConfusion h
    | ok text =>
      rw [processFile_some_ok st f ftype text hft hrd] at h
      injection h with h
      subst h
      by_cases hl : ftype = l
      · subst hl
        rw [if_pos rfl]
        unfold sumFor
        rw [lookupInfo_setInfo_self]
        simp only [Option.getD_some]
        rw [counterSum_foldl, counterSum_incrFiles]
        simp [linesRead, hrd]
      · have hne : l ≠ ftype := fun hx => hl hx.symm
        have hnot : ¬ (some ftype = some l) := fun hx => hl (Option.some.inj hx)
        rw [if_neg hnot, Nat.add_zero]
        unfold sumFor
        rw [lookupInfo_setInfo_ne st ftype _ l hne]

theorem runFiles_sumFor :
    ∀ (files : List FileInput) (st st1 : AggState),
      runFiles st files = Except.ok st1 →
      ∀ l : Language, sumFor st1 l = sumFor st l + totalLinesFor l files
  | [], st, st1, h, l => by
    simp only [runFiles] at h
    injection h with h
    subst h
    simp [totalLinesFor]
  | f :: fs, st, st1, h, l => by
    simp only [runFiles] at h
    cases hp : processFile st f with
    | error st2 =>
      rw [hp] at h
      exact Except.noConfusion h
    | ok st2 =>
      rw [hp] at h
      have hrec := runFiles_sumFor fs st2 st1 h l
      have hstep := sumFor_processFile_ok st st2 f hp l
      rw [hrec, hstep]
      simp only [totalLinesFor]
      omega

theorem foldl_totalsStep :
    ∀ (rows : AggState) (t : AnalysisInfo),
      rows.foldl totalsStep t =
        { files := t.files + (rows.map (fun row => row.2.files)).sum,
          blank := t.blank + (rows.map (fun row => row.2.blank)).sum,
          comment := t.comment + (rows.map (fun row => row.2.comment)).sum,
          code := t.code + (rows.map (fun row => row.2.code)).sum }
  | [], t => by simp
  | row :: rows, t => by
    rw [List.foldl_cons, foldl_totalsStep rows (totalsStep t row)]
    simp only [List.map_cons, List.sum_cons, totalsStep, AnalysisInfo.mk.injEq]
    refine ⟨?_, ?_, ?_, ?_⟩ <;> omega

/-! ### Claim theorems -/

/-- C1: the claim says a trimmed non-empty line of a `//`-marker language is a
comment exactly when it starts with the two-character string `//`.  The code
disagrees: `Language.get_factory` applies Python `tuple` to the default marker
string `"//"`, splitting it into the two one-character markers `"/"` and
`"/"`, so the single line `"/"` of a `.c` file is counted as a comment even
though `"//"` is not one of its prefixes.  This theorem evaluates the code at
that failing input. -/
theorem C1_single_slash_line_counted_as_comment :
    configuredLineMarkers (CLIKE "C" (StrOrTup.str ".c")) = ["/", "/"] ∧
    runFiles [] [{ suffix := ".c", read_text := Except.ok "/" }] =
      Except.ok [(CLIKE "C" (StrOrTup.str ".c"),
        { files := 1, blank := 0, comment := 1, code := 0 })] ∧
    "//".data.isPrefixOf "/".data = false :=
  ⟨rfl, rfl, rfl⟩

/-- C2: per-line classification is total and exclusive.  The classifier maps
every line to exactly one of the three categories: the whitespace-trimmed line
is `blank` exactly when it is empty, `comment` exactly when it is non-empty
and starts with one of the language's configured comment line markers, and
`code` exactly when it is non-empty and starts with none of them. -/
theorem C2_line_classification_total_and_exclusive (lang : Language) (line : String) :
    (classifyLine lang (pyStrip line) = LineCategory.blank ↔ pyStrip line = "") ∧
    (classifyLine lang (pyStrip line) = LineCategory.comment ↔
      (pyStrip line ≠ "" ∧
        ∃ m ∈ configuredLineMarkers lang, m.data.isPrefixOf (pyStrip line).data = true)) ∧
    (classifyLine lang (pyStrip line) = LineCategory.code ↔
      (pyStrip line ≠ "" ∧
        ∀ m ∈ configuredLineMarkers lang, m.data.isPrefixOf (pyStrip line).data = false)) := by
  by_cases h1 : pyStrip line = ""
  · simp [classifyLine, h1]
  · cases hsw : pyStartswith (pyStrip line) lang.comment_line_prefixes with
    | true =>
      obtain ⟨m, hm, hpre⟩ := (pyStartswith_iff (pyStrip line) lang).mp hsw
      have hc : classifyLine lang (pyStrip line) = LineCategory.comment := by
        simp [classifyLine, h1, hsw]
      refine ⟨?_, ?_, ?_⟩
      · rw [hc]; simp [h1]
      · rw [hc]
        exact ⟨fun _ => ⟨h1, m, hm, hpre⟩, fun _ => rfl⟩
      · rw [hc]
        constructor
        · intro hcc; cases hcc
        · intro ⟨_, hall⟩
          rw [hall m hm] at hpre
          cases hpre
    | false =>
      have hall := (pyStartswith_eq_false_iff (pyStrip line) lang).mp hsw
      have hc : classifyLine lang (pyStrip line) = LineCategory.code := by
        simp [classifyLine, h1, hsw]
      refine ⟨?_, ?_, ?_⟩
      · rw [hc]; simp [h1]
      · rw [hc]
        constructor
        · intro hcc; cases hcc
        · intro ⟨_, m, hm, hpre⟩
          rw [hall m hm] at hpre
          cases hpre
      · rw [hc]
        exact ⟨fun _ => ⟨h1, hall⟩, fun _ => rfl⟩

/-- C3: language resolution scans the registry in its fixed declaration order
(C, C++, Javascript, C#, Java, Golang, Python) and returns the first entry one
of whose registered extension strings is an ends-with suffix of the path's
suffix; when no entry matches it returns `none` (not an error) and the
caller's loop body leaves the state untouched. -/
theorem C3_resolution_is_first_match_in_declaration_order (f : FileInput) :
    SUPPORTED_LANGUAGES.map Language.name =
      ["C", "C++", "Javascript", "C#", "Java", "Golang", "Python"] ∧
    (∀ l : Language,
      figure_out_file_type f SUPPORTED_LANGUAGES = some l ↔
        ((∃ e ∈ registeredExtensions l, e.data.isSuffixOf f.suffix.data = true) ∧
          ∃ before after, SUPPORTED_LANGUAGES = before ++ l :: after ∧
            ∀ l2 ∈ before, ∀ e ∈ registeredExtensions l2,
              e.data.isSuffixOf f.suffix.data = false)) ∧
    (figure_out_file_type f SUPPORTED_LANGUAGES = none ↔
      ∀ l ∈ SUPPORTED_LANGUAGES, ∀ e ∈ registeredExtensions l,
        e.data.isSuffixOf f.suffix.data = false) ∧
    (figure_out_file_type f SUPPORTED_LANGUAGES = none →
      ∀ st : AggState, processFile st f = Except.ok st) := by
  refine ⟨rfl, ?_, ?_, ?_⟩
  · intro l
    rw [figure_out_file_type, List.find?_eq_some]
    constructor
    · intro ⟨hp, as, bs, heq, hall⟩
      refine ⟨(pyEndswith_iff f.suffix l).mp hp, as, bs, heq, ?_⟩
      intro l2 hl2
      refine (pyEndswith_eq_false_iff f.suffix l2).mp ?_
      have hx := hall l2 hl2
      simpa using hx
    · intro ⟨hext, before, after, heq, hfirst⟩
      refine ⟨(pyEndswith_iff f.suffix l).mpr hext, before, after, heq, ?_⟩
      intro l2 hl2
      have hx := (pyEndswith_eq_false_iff f.suffix l2).mpr (hfirst l2 hl2)
      simp [hx]
  · rw [figure_out_file_type, List.find?_eq_none]
    constructor
    · intro hnone l hl
      refine (pyEndswith_eq_false_iff f.suffix l).mp ?_
      have hx := hnone l hl
      simpa using hx
    · intro hall l hl
      have hx := (pyEndswith_eq_false_iff f.suffix l).mpr (hall l hl)
      simp [hx]
  · intro hnone st
    unfold processFile
    rw [hnone]

/-- Witness for C3 at a concrete input: an unregistered extension resolves to
no language. -/
theorem C3_witness :
    figure_out_file_type { suffix := ".xyz", read_text := Except.ok "" }
      SUPPORTED_LANGUAGES = none :=
  (C3_resolution_is_first_match_in_declaration_order
    { suffix := ".xyz", read_text := Except.ok "" }).2.2.1.mpr (by decide)

/-- C4: the sum law.  After a completed aggregation run, every language's
`blank + comment + code` equals the total number of lines read across the
files attributed to that language. -/
theorem C4_sum_law (files : List FileInput) (st : AggState)
    (hrun : runFiles [] files = Except.ok st) (l : Language) (a : AnalysisInfo)
    (hl : lookupInfo st l = some a) :
    a.blank + a.comment + a.code = totalLinesFor l files := by
  have h := runFiles_sumFor files [] st hrun l
  simp only [sumFor, lookupInfo, hl, Option.getD_some, Option.getD_none] at h
  simp only [counterSum] at h
  simpa using h

/-- Witness for C4 at a concrete input: one `.c` file with one code line, one
blank line and one comment line. -/
theorem C4_witness :
    ({ files := 1, blank := 1, comment := 1, code := 1 } : AnalysisInfo).blank
      + ({ files := 1, blank := 1, comment := 1, code := 1 } : AnalysisInfo).comment
      + ({ files := 1, blank := 1, comment := 1, code := 1 } : AnalysisInfo).code
      = totalLinesFor (CLIKE "C" (StrOrTup.str ".c"))
          [{ suffix := ".c", read_text := Except.ok "a\n\n// b" }] :=
  C4_sum_law [{ suffix := ".c", read_text := Except.ok "a\n\n// b" }]
    [(CLIKE "C" (StrOrTup.str ".c"),
      { files := 1, blank := 1, comment := 1, code := 1 })]
    (by rfl) (CLIKE "C" (StrOrTup.str ".c"))
    { files := 1, blank := 1, comment := 1, code := 1 } (by rfl)

/-- C10: when `read_text` fails after the language was resolved, the state is
not rolled back: the failure state has the language's entry present with
`files` bumped by one, its other counters unchanged, and every other
language's entry untouched. -/
theorem C10_read_failure_keeps_files_increment (st : AggState) (f : FileInput)
    (l : Language)
    (hft : figure_out_file_type f SUPPORTED_LANGUAGES = some l)
    (hrd : f.read_text = Except.error ()) :
    processFile st f =
      Except.error (setInfo st l (incrFiles ((lookupInfo st l).getD {}))) ∧
    lookupInfo (setInfo st l (incrFiles ((lookupInfo st l).getD {}))) l =
      some (incrFiles ((lookupInfo st l).getD {})) ∧
    (incrFiles ((lookupInfo st l).getD {})).files =
      ((lookupInfo st l).getD {}).files + 1 ∧
    (incrFiles ((lookupInfo st l).getD {})).blank = ((lookupInfo st l).getD {}).blank ∧
    (incrFiles ((lookupInfo st l).getD {})).comment =
      ((lookupInfo st l).getD {}).comment ∧
    (incrFiles ((lookupInfo st l).getD {})).code = ((lookupInfo st l).getD {}).code ∧
    ∀ l2 : Language, l2 ≠ l →
      lookupInfo (setInfo st l (incrFiles ((lookupInfo st l).getD {}))) l2 =
        lookupInfo st l2 := by
  refine ⟨processFile_some_error st f l hft hrd, lookupInfo_setInfo_self st l _,
    rfl, rfl, rfl, rfl, ?_⟩
  intro l2 h2
  exact lookupInfo_setInfo_ne st l _ l2 h2

/-- Witness for C10 at a concrete input: an unreadable `.go` file. -/
theorem C10_witness :
    processFile [] { suffix := ".go", read_text := Except.error () } =
      Except.error [(CLIKE "Golang" (StrOrTup.str ".go"),
        { files := 1, blank := 0, comment := 0, code := 0 })] :=
  (C10_read_failure_keeps_files_increment []
    { suffix := ".go", read_text := Except.error () }
    (CLIKE "Golang" (StrOrTup.str ".go")) (by rfl) (by rfl)).1

/-- C6: a file whose path resolves to no registered language leaves the
aggregation state exactly as it was: no entry is created and no counter is
touched. -/
theorem C6_unrecognized_file_leaves_state_unchanged (st : AggState) (f : FileInput)
    (h : figure_out_file_type f SUPPORTED_LANGUAGES = none) :
    processFile st f = Except.ok st := by
  unfold processFile
  rw [h]

/-- Witness for C6 at a concrete input: a `.txt` file is skipped. -/
theorem C6_witness :
    processFile [] { suffix := ".txt", read_text := Except.ok "hello" } = Except.ok [] :=
  C6_unrecognized_file_leaves_state_unchanged []
    { suffix := ".txt", read_text := Except.ok "hello" } (by rfl)

/-- C7: an invalid root (neither an existing file nor an existing directory)
makes the program fail with the invalid-argument error; no report and no
counters are ever produced. -/
theorem C7_invalid_root_fails_before_processing (name : String) :
    clocpy (RootPath.invalid name) =
      Except.error (ClocpyError.invalidRoot
        ("\"" ++ name ++ "\" is not a file or a directory")) :=
  rfl

/-- C5: the report rows are the aggregation entries stably sorted by `code`
descending — non-increasing `code`, with the entries of any given `code`
value kept in their first-encounter (insertion) order — and the SUM row's
four counters are the element-wise sums over the rows. -/
theorem C5_report_rows_sorted_stable_and_summed (st : AggState) :
    (buildReport st).rows.Pairwise
      (fun row1 row2 => row2.2.code ≤ row1.2.code) ∧
    (∀ c : Nat,
      (buildReport st).rows.filter (fun row => decide (row.2.code = c))
        = st.filter (fun row => decide (row.2.code = c))) ∧
    (buildReport st).sumRow.files
      = ((buildReport st).rows.map (fun row => row.2.files)).sum ∧
    (buildReport st).sumRow.blank
      = ((buildReport st).rows.map (fun row => row.2.blank)).sum ∧
    (buildReport st).sumRow.comment
      = ((buildReport st).rows.map (fun row => row.2.comment)).sum ∧
    (buildReport st).sumRow.code
      = ((buildReport st).rows.map (fun row => row.2.code)).sum := by
  have htrans : ∀ a b c : Language × AnalysisInfo,
      decide (b.2.code ≤ a.2.code) = true → decide (c.2.code ≤ b.2.code) = true →
      decide (c.2.code ≤ a.2.code) = true := by
    intro a b c hab hbc
    simp only [decide_eq_true_eq] at hab hbc ⊢
    omega
  have htotal : ∀ a b : Language × AnalysisInfo,
      (decide (b.2.code ≤ a.2.code) || decide (a.2.code ≤ b.2.code)) = true := by
    intro a b
    simp only [Bool.or_eq_true, decide_eq_true_eq]
    omega
  simp only [buildReport, sortRows]
  refine ⟨?_, ?_, ?_, ?_, ?_, ?_⟩
  · exact (List.sorted_mergeSort htrans htotal st).imp
      (fun h => by simpa using h)
  · intro c
    have hsub0 : List.Sublist (st.filter (fun row => decide (row.2.code = c))) st :=
      List.filter_sublist st
    have hpw : (st.filter (fun row => decide (row.2.code = c))).Pairwise
        (fun r s => decide (s.2.code ≤ r.2.code)) := by
      apply List.pairwise_of_forall_mem_list
      intro a ha b hb
      have ha2 := List.of_mem_filter ha
      have hb2 := List.of_mem_filter hb
      simp only [decide_eq_true_eq] at ha2 hb2 ⊢
      omega
    have hsub := List.sublist_mergeSort htrans htotal hpw hsub0
    have hsub2 : List.Sublist (st.filter (fun row => decide (row.2.code = c)))
        ((st.mergeSort (fun a b => decide (b.2.code ≤ a.2.code))).filter
          (fun row => decide (row.2.code = c))) := by
      have hx := List.Sublist.filter (fun row => decide (row.2.code = c)) hsub
      rw [List.filter_filter] at hx
      simpa [Bool.and_self] using hx
    have hperm := (List.mergeSort_perm st
      (fun a b => decide (b.2.code ≤ a.2.code))).filter
        (fun row => decide (row.2.code = c))
    exact (hsub2.eq_of_length hperm.length_eq.symm).symm
  · simp [computeTotals, foldl_totalsStep]
  · simp [computeTotals, foldl_totalsStep]
  · simp [computeTotals, foldl_totalsStep]
  · simp [computeTotals, foldl_totalsStep]

/-- C8: a single `.cpp` file with empty content yields exactly one entry, for
C++, with one file and zero blank, comment and code lines; the SUM row agrees. -/
theorem C8_empty_cpp_file_counts :
    clocpy (RootPath.file { suffix := ".cpp", read_text := Except.ok "" }) =
      Except.ok { rows := [(CLIKE "C++" (StrOrTup.tup [".c++", ".cpp"]),
                            { files := 1, blank := 0, comment := 0, code := 0 })],
                  sumRow := { files := 1, blank := 0, comment := 0, code := 0 } } := by
  have h1 : runFiles [] [{ suffix := ".cpp", read_text := Except.ok "" }] =
      Except.ok [(CLIKE "C++" (StrOrTup.tup [".c++", ".cpp"]),
        { files := 1, blank := 0, comment := 0, code := 0 })] := rfl
  simp only [clocpy, h1, buildReport, sortRows, List.mergeSort_singleton,
    computeTotals, totalsStep, List.foldl]

/-- C9: the aggregator is deterministic: two runs over the same file sequence
with the same contents produce the same mapping. -/
theorem C9_aggregation_deterministic (files : List FileInput) (st1 st2 : AggState)
    (h1 : runFiles [] files = Except.ok st1) (h2 : runFiles [] files = Except.ok st2) :
    st1 = st2 := by
  rw [h1] at h2
  injection h2

/-- Witness for C9 at a concrete input: two runs over one `.go` file. -/
theorem C9_witness :
    ([(CLIKE "Golang" (StrOrTup.str ".go"),
        { files := 1, blank := 0, comment := 0, code := 1 })] : AggState) =
      [(CLIKE "Golang" (StrOrTup.str ".go"),
        { files := 1, blank := 0, comment := 0, code := 1 })] :=
  C9_aggregation_deterministic [{ suffix := ".go", read_text := Except.ok "x" }]
    [(CLIKE "Golang" (StrOrTup.str ".go"),
      { files := 1, blank := 0, comment := 0, code := 1 })]
    [(CLIKE "Golang" (StrOrTup.str ".go"),
      { files := 1, blank := 0, comment := 0, code := 1 })]
    (by rfl) (by rfl)

end Clocpy
